import Mathlib

/-!
Shallow embedding of the DalalStreetAI backend pipeline
(src/backend/app.py, agent_worker.py, updated_pnl.py, weekly_predictory.py).

Prices are modelled as rationals (ℚ); dates as natural-number day indices
with day 0 a Monday, so `weekday d = d % 7` as in Python `date.weekday()`.
External collaborators (yfinance fetches, the LLM call, JSON parsing) are
passed in as explicit parameters: a successful parse yields a typed record,
a failure an `Except.error`, mirroring the try/except structure of the
source.
-/

namespace DalalStreet

/-- A row of the `decisions` table. `day` is `DATE(timestamp)`. -/
structure Decision where
  id : Nat
  symbol : String
  exchange : String
  day : Nat
  price_at_decision : Option ℚ
  decision : String
  confidence : String
  technical_summary : String
  fundamental_summary : String
  sentiment_summary : String
  final_summary : String
  profit_loss : Option ℚ
deriving DecidableEq, Repr

/-- The six fields of a successfully parsed LLM judgment response
(app.py `JsonOutputParser` output for the master prompt). The parser
imposes no constraint on the field contents beyond their presence. -/
structure OracleResponse where
  decision : String
  confidence : String
  technical_summary : String
  fundamental_summary : String
  sentiment_summary : String
  final_summary : String
deriving DecidableEq, Repr

/-- The dict returned by a successful `run_full_analysis`
(the parsed response plus `price_at_decision`). -/
structure AnalysisResult where
  decision : String
  confidence : String
  technical_summary : String
  fundamental_summary : String
  sentiment_summary : String
  final_summary : String
  price_at_decision : ℚ
deriving DecidableEq, Repr

/-- app.py `run_full_analysis`: returns an error dict when history is
empty or when any step (fetch, LLM call, JSON parse) raises; otherwise
returns the parsed response with `price_at_decision` set to the last
close. No validation of `decision`/`confidence` is performed. -/
def run_full_analysis (histEmpty : Bool) (lastClose : ℚ)
    (oracle : Except String OracleResponse) : Except String AnalysisResult :=
  if histEmpty then Except.error "Could not fetch historical data."
  else
    match oracle with
    | Except.error e => Except.error e
    | Except.ok r =>
        Except.ok ⟨r.decision, r.confidence, r.technical_summary,
          r.fundamental_summary, r.sentiment_summary, r.final_summary, lastClose⟩

/-- The row inserted by agent_worker.py for a successful analysis
(`INSERT INTO decisions ...`; the DB-assigned id is modelled as 0 and
`timestamp`'s date as today). -/
def mkDecision (sym exch : String) (today : Nat) (r : AnalysisResult) : Decision :=
  ⟨0, sym, exch, today, some r.price_at_decision, r.decision, r.confidence,
   r.technical_summary, r.fundamental_summary, r.sentiment_summary,
   r.final_summary, none⟩

/-- agent_worker.py lines 33-36: `SELECT id FROM decisions WHERE
symbol = %s AND DATE(timestamp) = CURRENT_DATE` found a row. -/
def hasToday (today : Nat) (ds : List Decision) (s : String) : Prop :=
  ∃ d ∈ ds, d.symbol = s ∧ d.day = today

instance (today : Nat) (ds : List Decision) (s : String) :
    Decidable (hasToday today ds s) :=
  List.decidableBEx _ ds

/-- One iteration of the agent_worker.py loop over watchlist stocks.
The state is the decisions table together with the list of symbols for
which `run_full_analysis` (Gateway, Indicators and Oracle) was invoked. -/
def processStock (today : Nat)
    (analyze : String → String → Except String AnalysisResult)
    (st : List Decision × List String) (stock : String × String) :
    List Decision × List String :=
  if hasToday today st.1 stock.1 then st
  else
    match analyze stock.1 stock.2 with
    | Except.error _ => (st.1, st.2 ++ [stock.1])
    | Except.ok r => (st.1 ++ [mkDecision stock.1 stock.2 today r], st.2 ++ [stock.1])

/-- agent_worker.py `run_proactive_analysis`: iterate over the distinct
watchlisted stocks, skipping any symbol that already has a decision row
dated today. Returns the final decisions table and the trace of symbols
for which the analysis (fetch, oracle) was actually run. -/
def run_proactive_analysis (today : Nat)
    (analyze : String → String → Except String AnalysisResult)
    (watch : List (String × String)) (ds : List Decision) :
    List Decision × List String :=
  watch.foldl (processStock today analyze) (ds, [])

/-- updated_pnl.py lines 20-23: the selection predicate of the P&L
updater — null profit_loss and decision in BUY/SELL. -/
def pnlEligible (d : Decision) : Prop :=
  d.profit_loss = none ∧ (d.decision = "BUY" ∨ d.decision = "SELL")

instance (d : Decision) : Decidable (pnlEligible d) := by
  unfold pnlEligible
  infer_instance

/-- updated_pnl.py lines 52-77: the per-decision body of the loop.
Skips when no current price is available, when the decision price is
missing, or when `|current − decision| < 0.01` (the holiday guard);
otherwise stores the signed percentage change. -/
def reconcileRow (prices : String → Option ℚ) (d : Decision) : Decision :=
  match prices d.symbol with
  | none => d
  | some cur =>
      match d.price_at_decision with
      | none => d
      | some dp =>
          if |cur - dp| < 1 / 100 then d
          else
            let pnl := ((cur - dp) / dp) * 100
            let pnl := if d.decision = "SELL" then -pnl else pnl
            { d with profit_loss := some pnl }

/-- updated_pnl.py `update_profit_loss`: select the eligible rows, fetch
a batch of current prices (`none` models an empty yfinance download, in
which case the run returns without touching the table), and update each
selected row via `reconcileRow`. Rows outside the selection are never
touched. -/
def update_profit_loss (fetched : Option (String → Option ℚ))
    (ds : List Decision) : List Decision :=
  match fetched with
  | none => ds
  | some prices => ds.map (fun d => if pnlEligible d then reconcileRow prices d else d)

/-- One entry of the `daily_predictions` list of a weekly forecast. -/
structure DailyPred where
  day : String
  predicted_price : ℚ
deriving DecidableEq, Repr

/-- A successfully parsed forecasting-prompt response
(weekly_predictory.py lines 142-144). -/
structure ForecastResponse where
  weekly_reasoning : String
  daily_predictions : List DailyPred
deriving DecidableEq, Repr

/-- The numeric and per-day content of the `performance_summary` text
(`Avg Daily Error: ...` plus one `Off by ...` line per matched day);
the decimal string formatting itself is presentation and not modelled. -/
structure Summary where
  avg : ℚ
  lines : List (String × ℚ)
deriving DecidableEq, Repr

/-- A row of the `weekly_index_predictions` table. -/
structure ForecastRow where
  symbol : String
  prediction_date : Nat
  week_start_date : Nat
  week_end_date : Nat
  daily_predictions_json : List DailyPred
  weekly_reasoning : String
  actual_closing_price : Option ℚ
  performance_summary : Option Summary
deriving DecidableEq, Repr

/-- weekly_predictory.py line 91: the guarded per-day error,
`((actual − predicted) / predicted) * 100 if predicted_price > 0 else 0`. -/
def dayDiff (p a : ℚ) : ℚ :=
  if p > 0 then ((a - p) / p) * 100 else 0

/-- The contribution of the day at index `i` to `total_diff_percent`:
zero when the day has no matching trading-day close. -/
def dayContrib (actual : Nat → Option ℚ) (i : Nat) (p : ℚ) : ℚ :=
  match actual i with
  | some a => dayDiff p a
  | none => 0

/-- weekly_predictory.py lines 86-93: `total_diff_percent` accumulated
over `enumerate(predicted_days)`, day `k + i` for the i-th entry. -/
def totalDiff (actual : Nat → Option ℚ) : Nat → List ℚ → ℚ
  | _, [] => 0
  | k, p :: rest => dayContrib actual k p + totalDiff actual (k + 1) rest

/-- weekly_predictory.py line 95:
`avg_diff = total_diff_percent / len(predicted_days) if predicted_days else 0`. -/
def avgDiff (actual : Nat → Option ℚ) (k : Nat) (preds : List ℚ) : ℚ :=
  if preds.isEmpty then 0 else totalDiff actual k preds / preds.length

/-- The per-day errors of only those predicted days that had a matching
trading-day close (in order). -/
def matchedDiffs (actual : Nat → Option ℚ) : Nat → List ℚ → List ℚ
  | _, [] => []
  | k, p :: rest =>
      match actual k with
      | some a => dayDiff p a :: matchedDiffs actual (k + 1) rest
      | none => matchedDiffs actual (k + 1) rest

/-- The quantity the spec describes for the stored average: the mean of
the per-day errors taken over only the predicted days that had actual
data, days without a matching trading day excluded from the average
entirely. Stated from the spec's words, for comparison with `avgDiff`. -/
def meanOverMatchedDays (actual : Nat → Option ℚ) (k : Nat) (preds : List ℚ) : ℚ :=
  let diffs := matchedDiffs actual k preds
  if diffs.isEmpty then 0 else diffs.sum / diffs.length

/-- weekly_predictory.py line 92: the `performance_lines` entries, one
per matched day (day name paired with its error). -/
def perfLines (actual : Nat → Option ℚ) : Nat → List DailyPred → List (String × ℚ)
  | _, [] => []
  | k, q :: rest =>
      match actual k with
      | some a => (q.day, dayDiff q.predicted_price a) :: perfLines actual (k + 1) rest
      | none => perfLines actual (k + 1) rest

/-- `day_date in actual_hist.index` / `actual_hist.loc[day_date]['Close']`
over a fetched history given as (date, close) pairs. -/
def histClose (hist : List (Nat × ℚ)) (d : Nat) : Option ℚ :=
  (hist.find? (fun q => q.1 = d)).map Prod.snd

/-- weekly_predictory.py lines 71-103: the per-row body of
`evaluate_last_week_predictions`. A failed fetch, an empty
`daily_predictions_json`, or an empty history (making
`Close.iloc[-1]` raise, caught by the except) leaves the row untouched;
otherwise one single UPDATE sets `actual_closing_price` and
`performance_summary` together. -/
def evalRow (fetch : Except String (List (Nat × ℚ))) (row : ForecastRow) : ForecastRow :=
  match fetch with
  | Except.error _ => row
  | Except.ok hist =>
      let preds := row.daily_predictions_json
      if preds.isEmpty then row
      else
        match (hist.map Prod.snd).getLast? with
        | none => row
        | some finalPrice =>
            { row with
              actual_closing_price := some finalPrice,
              performance_summary := some
                ⟨avgDiff (histClose hist) row.week_start_date
                    (preds.map DailyPred.predicted_price),
                 perfLines (histClose hist) row.week_start_date preds⟩ }

/-- weekly_predictory.py line 61: the Monday of last week,
`today - (today.weekday() + 7)`. -/
def lastWeekStart (today : Nat) : Nat :=
  today - (today % 7 + 7)

/-- weekly_predictory.py `evaluate_last_week_predictions`: evaluate every
row selected by `week_start_date = last_week_start AND
actual_closing_price IS NULL`; other rows are untouched. -/
def evaluate_last_week_predictions (today : Nat)
    (fetch : String → Except String (List (Nat × ℚ)))
    (rows : List ForecastRow) : List ForecastRow :=
  rows.map (fun r =>
    if r.week_start_date = lastWeekStart today ∧ r.actual_closing_price = none then
      evalRow (fetch r.symbol) r
    else r)

/-- weekly_predictory.py line 119: the upcoming Monday,
`today + (7 - today.weekday()) % 7`. -/
def weekStartOf (today : Nat) : Nat :=
  today + (7 - today % 7) % 7

/-- weekly_predictory.py `generate_new_weekly_predictions`: for each
tracked index, skip when a row for (symbol, week_start) exists; when the
per-symbol work (history fetch, LLM call, JSON extraction) fails, roll
back and continue; otherwise insert one row carrying the parsed
response's `daily_predictions` and `weekly_reasoning` verbatim. -/
def generate_new_weekly_predictions (today : Nat)
    (oracle : String → Except String ForecastResponse)
    (syms : List String) (rows : List ForecastRow) : List ForecastRow :=
  syms.foldl (fun acc s =>
    if acc.any (fun r => r.symbol = s ∧ r.week_start_date = weekStartOf today) then acc
    else
      match oracle s with
      | Except.error _ => acc
      | Except.ok resp =>
          acc ++ [⟨s, today, weekStartOf today, weekStartOf today + 4,
                   resp.daily_predictions, resp.weekly_reasoning, none, none⟩]) rows

/-! ## Theorems about the Outcome Reconciliation Job -/

/-- C2: For every Decision processed by the Outcome Reconciliation Job,
if the absolute difference between the fetched current price and
price_at_decision is strictly less than 0.01, the job skips that row
without writing profit_loss, so profit_loss remains null after the run
(the holiday guard, tolerance exactly 0.01). -/
theorem holiday_guard_keeps_profit_loss_null
    (prices : String → Option ℚ) (ds : List Decision) (i : Nat) (d : Decision)
    (cur dp : ℚ) (hd : ds[i]? = some d) (hnull : d.profit_loss = none)
    (hbs : d.decision = "BUY" ∨ d.decision = "SELL")
    (hcur : prices d.symbol = some cur) (hdp : d.price_at_decision = some dp)
    (htol : |cur - dp| < 1 / 100) :
    (update_profit_loss (some prices) ds)[i]? = some d ∧ d.profit_loss = none := by
  refine ⟨?_, hnull⟩
  simp only [update_profit_loss, List.getElem?_map, hd, Option.map_some']
  rw [if_pos ⟨hnull, hbs⟩]
  have hrow : reconcileRow prices d = d := by
    simp only [reconcileRow, hcur, hdp]
    rw [if_pos htol]
  rw [hrow]

/-- Witness for C2 at the spec's example: decision price 3500.00, current
price 3500.009, difference 0.009 < 0.01 → the row is untouched. -/
theorem holiday_guard_keeps_profit_loss_null_witness :
    (update_profit_loss
        (some (fun _ => some (3500 + 9 / 1000)))
        [⟨1, "TCS.NS", "NSE", 0, some 3500, "BUY", "High", "", "", "", "", none⟩])[0]?
      = some ⟨1, "TCS.NS", "NSE", 0, some 3500, "BUY", "High", "", "", "", "", none⟩
    ∧ (Decision.profit_loss
        ⟨1, "TCS.NS", "NSE", 0, some 3500, "BUY", "High", "", "", "", "", none⟩) = none :=
  holiday_guard_keeps_profit_loss_null (fun _ => some (3500 + 9 / 1000))
    [⟨1, "TCS.NS", "NSE", 0, some 3500, "BUY", "High", "", "", "", "", none⟩] 0
    ⟨1, "TCS.NS", "NSE", 0, some 3500, "BUY", "High", "", "", "", "", none⟩
    (3500 + 9 / 1000) 3500 rfl rfl (Or.inl rfl) rfl rfl
    (abs_lt.mpr (by constructor <;> norm_num))

/-- C3: For every Decision the job reconciles (current price available,
decision price present, |difference| ≥ 0.01), the stored profit_loss is
((current − decision_price) / decision_price) × 100, negated exactly when
the decision is SELL. -/
theorem reconciled_pnl_formula
    (prices : String → Option ℚ) (ds : List Decision) (i : Nat) (d : Decision)
    (cur dp : ℚ) (hd : ds[i]? = some d) (hnull : d.profit_loss = none)
    (hbs : d.decision = "BUY" ∨ d.decision = "SELL")
    (hcur : prices d.symbol = some cur) (hdp : d.price_at_decision = some dp)
    (htol : 1 / 100 ≤ |cur - dp|) :
    (update_profit_loss (some prices) ds)[i]? =
      some { d with profit_loss := some (if d.decision = "SELL" then -(((cur - dp) / dp) * 100) else ((cur - dp) / dp) * 100) } := by
  simp only [update_profit_loss, List.getElem?_map, hd, Option.map_some']
  rw [if_pos ⟨hnull, hbs⟩]
  have hrow : reconcileRow prices d
      = { d with profit_loss := some (if d.decision = "SELL" then -(((cur - dp) / dp) * 100) else ((cur - dp) / dp) * 100) } := by
    simp only [reconcileRow, hcur, hdp]
    rw [if_neg (not_lt.mpr htol)]
  rw [hrow]

/-- Witness for C3 at the spec's example: BUY at 3500.00, current price
3605.00 → profit_loss = ((3605 − 3500) / 3500) × 100 = 3.00. -/
theorem reconciled_pnl_formula_witness :
    (update_profit_loss
        (some (fun _ => some 3605))
        [⟨1, "TCS.NS", "NSE", 0, some 3500, "BUY", "High", "", "", "", "", none⟩])[0]?
      = some ⟨1, "TCS.NS", "NSE", 0, some 3500, "BUY", "High", "", "", "", "", some 3⟩ := by
  have h := reconciled_pnl_formula (fun _ => some 3605)
    [⟨1, "TCS.NS", "NSE", 0, some 3500, "BUY", "High", "", "", "", "", none⟩] 0
    ⟨1, "TCS.NS", "NSE", 0, some 3500, "BUY", "High", "", "", "", "", none⟩
    3605 3500 rfl rfl (Or.inl rfl) rfl rfl
    (le_abs.mpr (Or.inl (by norm_num)))
  rw [h]
  norm_num
  decide

/-- C4: For every Decision with decision = HOLD, the Outcome
Reconciliation Job never sets profit_loss: its selection restricts to
decision in BUY/SELL with profit_loss null, so a HOLD row is untouched
by every reconciliation run (in particular a null profit_loss stays null). -/
theorem hold_rows_never_scored
    (fetched : Option (String → Option ℚ)) (ds : List Decision) (i : Nat)
    (d : Decision) (hd : ds[i]? = some d) (hhold : d.decision = "HOLD") :
    (update_profit_loss fetched ds)[i]? = some d := by
  cases fetched with
  | none => simpa [update_profit_loss] using hd
  | some prices =>
      simp only [update_profit_loss, List.getElem?_map, hd, Option.map_some']
      rw [if_neg]
      rintro ⟨-, hb | hs⟩
      · rw [hhold] at hb; exact absurd hb (by decide)
      · rw [hhold] at hs; exact absurd hs (by decide)

/-- Witness for C4: a HOLD row with null profit_loss is returned
unchanged by a run that sees a moved price. -/
theorem hold_rows_never_scored_witness :
    (update_profit_loss (some (fun _ => some 3605))
        [⟨1, "TCS.NS", "NSE", 0, some 3500, "HOLD", "High", "", "", "", "", none⟩])[0]?
      = some ⟨1, "TCS.NS", "NSE", 0, some 3500, "HOLD", "High", "", "", "", "", none⟩ :=
  hold_rows_never_scored (some (fun _ => some 3605)) _ 0 _ rfl rfl

/-- C5: profit_loss is write-once: a Decision whose profit_loss is
already non-null falls outside the job's selection (the equivalent of a
WHERE profit_loss IS NULL guard), so any subsequent reconciliation run
leaves the row — in particular its profit_loss value — unchanged. -/
theorem profit_loss_write_once
    (fetched : Option (String → Option ℚ)) (ds : List Decision) (i : Nat)
    (d : Decision) (v : ℚ) (hd : ds[i]? = some d) (hv : d.profit_loss = some v) :
    (update_profit_loss fetched ds)[i]? = some d := by
  cases fetched with
  | none => simpa [update_profit_loss] using hd
  | some prices =>
      simp only [update_profit_loss, List.getElem?_map, hd, Option.map_some']
      rw [if_neg]
      rintro ⟨hn, -⟩
      rw [hv] at hn
      exact Option.noConfusion hn

/-- Witness for C5: a BUY row already scored at 3.00 is untouched by a
later run that sees yet another price. -/
theorem profit_loss_write_once_witness :
    (update_profit_loss (some (fun _ => some 3700))
        [⟨1, "TCS.NS", "NSE", 0, some 3500, "BUY", "High", "", "", "", "", some 3⟩])[0]?
      = some ⟨1, "TCS.NS", "NSE", 0, some 3500, "BUY", "High", "", "", "", "", some 3⟩ :=
  profit_loss_write_once (some (fun _ => some 3700)) _ 0 _ 3 rfl rfl

/-! ## Theorems about the Daily Recommendation Job -/

lemma hasToday_append (t : Nat) (ds ds2 : List Decision) (s : String)
    (h : hasToday t ds s) : hasToday t (ds ++ ds2) s := by
  obtain ⟨d, hmem, hp⟩ := h
  exact ⟨d, List.mem_append_left ds2 hmem, hp⟩

lemma foldl_process_preserves (today : Nat)
    (analyze : String → String → Except String AnalysisResult) :
    ∀ (watch : List (String × String)) (ds : List Decision) (calls : List String)
      (s : String), hasToday today ds s →
      ((watch.foldl (processStock today analyze) (ds, calls)).1.filter
          (fun d => d.symbol == s)
        = ds.filter (fun d => d.symbol == s))
      ∧ ((s ∈ (watch.foldl (processStock today analyze) (ds, calls)).2) ↔ s ∈ calls) := by
  intro watch
  induction watch with
  | nil => intro ds calls s h; simp
  | cons st rest ih =>
      intro ds calls s h
      simp only [List.foldl_cons]
      by_cases hc : hasToday today ds st.1
      · rw [show processStock today analyze (ds, calls) st = (ds, calls) by
          simp [processStock, if_pos hc]]
        exact ih ds calls s h
      · have hne : st.1 ≠ s := by rintro rfl; exact hc h
        have hne' : s ≠ st.1 := hne.symm
        cases han : analyze st.1 st.2 with
        | error e =>
            rw [show processStock today analyze (ds, calls) st = (ds, calls ++ [st.1]) by
              simp [processStock, if_neg hc, han]]
            have hrec := ih ds (calls ++ [st.1]) s h
            refine ⟨hrec.1, ?_⟩
            rw [hrec.2]
            simp [hne']
        | ok r =>
            rw [show processStock today analyze (ds, calls) st
                = (ds ++ [mkDecision st.1 st.2 today r], calls ++ [st.1]) by
              simp [processStock, if_neg hc, han]]
            have h' : hasToday today (ds ++ [mkDecision st.1 st.2 today r]) s :=
              hasToday_append today ds _ s h
            have hrec := ih (ds ++ [mkDecision st.1 st.2 today r]) (calls ++ [st.1]) s h'
            constructor
            · rw [hrec.1, List.filter_append]
              simp [mkDecision, hne]
            · rw [hrec.2]
              simp [hne']

/-- C1: For every symbol that already has a Decision row dated today,
running the Daily Recommendation Job inserts no new Decision row for
that symbol and never invokes the fetch/indicator/oracle analysis for
it: the per-symbol check finds the existing row and short-circuits. -/
theorem daily_job_idempotent_per_symbol (today : Nat)
    (analyze : String → String → Except String AnalysisResult)
    (watch : List (String × String)) (ds : List Decision) (s : String)
    (h : hasToday today ds s) :
    ((run_proactive_analysis today analyze watch ds).1.filter
        (fun d => d.symbol == s)
      = ds.filter (fun d => d.symbol == s))
    ∧ s ∉ (run_proactive_analysis today analyze watch ds).2 := by
  have hrec := foldl_process_preserves today analyze watch ds [] s h
  exact ⟨hrec.1, fun hs => by simpa using hrec.2.mp hs⟩

/-- Witness for C1: a watchlist stock whose symbol already has a row
dated today is skipped — the table slice for the symbol is unchanged and
no analysis call is made. -/
theorem daily_job_idempotent_per_symbol_witness :
    (((run_proactive_analysis 5 (fun _ _ => Except.error "x") [("TCS.NS", "NSE")]
          [⟨1, "TCS.NS", "NSE", 5, some 3500, "BUY", "High", "", "", "", "", none⟩]).1.filter
        (fun d => d.symbol == "TCS.NS"))
      = ([⟨1, "TCS.NS", "NSE", 5, some 3500, "BUY", "High", "", "", "", "", none⟩].filter
          (fun d => d.symbol == "TCS.NS")))
    ∧ "TCS.NS" ∉ (run_proactive_analysis 5 (fun _ _ => Except.error "x")
        [("TCS.NS", "NSE")]
        [⟨1, "TCS.NS", "NSE", 5, some 3500, "BUY", "High", "", "", "", "", none⟩]).2 :=
  daily_job_idempotent_per_symbol 5 (fun _ _ => Except.error "x") [("TCS.NS", "NSE")]
    [⟨1, "TCS.NS", "NSE", 5, some 3500, "BUY", "High", "", "", "", "", none⟩]
    "TCS.NS" (by decide)

/-! ## Theorems about the Weekly Forecast Job -/

lemma dayContrib_zero (actual : Nat → Option ℚ) (k : Nat) :
    dayContrib actual k 0 = 0 := by
  cases h : actual k <;> simp [dayContrib, dayDiff, h]

lemma totalDiff_eq_matchedDiffs_sum (actual : Nat → Option ℚ) :
    ∀ (preds : List ℚ) (k : Nat),
      totalDiff actual k preds = (matchedDiffs actual k preds).sum := by
  intro preds
  induction preds with
  | nil => intro k; simp [totalDiff, matchedDiffs]
  | cons p rest ih =>
      intro k
      cases hk : actual k with
      | none => simp [totalDiff, matchedDiffs, dayContrib, hk, ih]
      | some a => simp [totalDiff, matchedDiffs, dayContrib, hk, ih]

lemma totalDiff_append_zero (actual : Nat → Option ℚ) :
    ∀ (l1 : List ℚ) (k : Nat) (l2 : List ℚ),
      totalDiff actual k (l1 ++ 0 :: l2)
        = totalDiff actual k l1 + totalDiff actual (k + l1.length + 1) l2 := by
  intro l1
  induction l1 with
  | nil =>
      intro k l2
      simp [totalDiff, dayContrib_zero]
  | cons p t ih =>
      intro k l2
      show dayContrib actual k p + totalDiff actual (k + 1) (t ++ 0 :: l2)
          = dayContrib actual k p + totalDiff actual (k + 1) t
            + totalDiff actual (k + (t.length + 1) + 1) l2
      rw [ih (k + 1) l2]
      have harith : k + 1 + t.length + 1 = k + (t.length + 1) + 1 := by omega
      rw [harith]
      ring

/-- C7: During prior-week evaluation, a predicted day whose
predicted_price is 0 is guarded: its diff_percent is not computed by
division (the guard yields 0), so the day contributes nothing to the
accumulated total or to the average, and the row is not aborted — the
total over the remaining days is exactly the total with the zero day
dropped. -/
theorem zero_predicted_day_contributes_nothing (actual : Nat → Option ℚ)
    (k : Nat) (l1 l2 : List ℚ) :
    totalDiff actual k (l1 ++ 0 :: l2)
      = totalDiff actual k l1 + totalDiff actual (k + l1.length + 1) l2
    ∧ avgDiff actual k (l1 ++ 0 :: l2)
      = (totalDiff actual k l1 + totalDiff actual (k + l1.length + 1) l2)
        / ((l1.length + l2.length + 1 : ℕ) : ℚ) := by
  refine ⟨totalDiff_append_zero actual l1 k l2, ?_⟩
  have hne : (l1 ++ 0 :: l2).isEmpty = false := by
    cases l1 <;> simp
  rw [avgDiff, hne]
  simp only [Bool.false_eq_true, if_false, totalDiff_append_zero actual l1 k l2,
    List.length_append, List.length_cons]
  push_cast
  ring

/-- C6 counterexample: one matched trading day (error 10%) and four
holiday days. The job stores 10 / 5 = 2 as the average, while the mean
over only the matched days is 10 — missing days are counted as zero
error, not excluded. -/
theorem avg_error_counts_missing_days :
    avgDiff (fun d => if d = 0 then some 110 else none) 0 [100, 100, 100, 100, 100] = 2
    ∧ meanOverMatchedDays (fun d => if d = 0 then some 110 else none) 0
        [100, 100, 100, 100, 100] = 10
    ∧ avgDiff (fun d => if d = 0 then some 110 else none) 0 [100, 100, 100, 100, 100]
      ≠ meanOverMatchedDays (fun d => if d = 0 then some 110 else none) 0
          [100, 100, 100, 100, 100] := by
  refine ⟨?_, ?_, ?_⟩ <;>
    norm_num [avgDiff, totalDiff, dayContrib, dayDiff, matchedDiffs, meanOverMatchedDays]

/-- C6 amended: the averaged error the evaluation stores in
performance_summary is the sum of the per-day diff_percent values over
the matched trading days divided by the number of predicted days — days
without a matching close contribute zero error to the numerator but are
still counted in the denominator. -/
theorem avg_error_denominator_counts_all_days
    (hist : List (Nat × ℚ)) (row : ForecastRow) (c : ℚ)
    (h1 : row.daily_predictions_json ≠ [])
    (h2 : (hist.map Prod.snd).getLast? = some c) :
    (evalRow (Except.ok hist) row).performance_summary
      = some ⟨(matchedDiffs (histClose hist) row.week_start_date
              (row.daily_predictions_json.map DailyPred.predicted_price)).sum
            / (row.daily_predictions_json.length : ℚ),
          perfLines (histClose hist) row.week_start_date row.daily_predictions_json⟩ := by
  have hemp : row.daily_predictions_json.isEmpty = false := by
    cases hj : row.daily_predictions_json with
    | nil => exact absurd hj h1
    | cons a t => simp
  simp only [evalRow, hemp, Bool.false_eq_true, if_false, h2]
  rw [avgDiff]
  have hemp2 : (row.daily_predictions_json.map DailyPred.predicted_price).isEmpty = false := by
    cases hj : row.daily_predictions_json with
    | nil => exact absurd hj h1
    | cons a t => simp
  rw [hemp2]
  simp [totalDiff_eq_matchedDiffs_sum]

/-- Witness for the amended C6: a five-day forecast at 100 with a single
trading day closing at 110 stores both evaluation fields, the average
built from the matched-day errors over all five predicted days. -/
theorem avg_error_denominator_counts_all_days_witness :
    (evalRow (Except.ok [(0, 110)])
        ⟨"^NSEI", 0, 0, 4,
         [⟨"Monday", 100⟩, ⟨"Tuesday", 100⟩, ⟨"Wednesday", 100⟩,
          ⟨"Thursday", 100⟩, ⟨"Friday", 100⟩], "flat", none, none⟩).performance_summary
      = some ⟨(matchedDiffs (histClose [(0, 110)]) 0
              ([⟨"Monday", 100⟩, ⟨"Tuesday", 100⟩, ⟨"Wednesday", 100⟩,
                ⟨"Thursday", 100⟩, ⟨"Friday", 100⟩].map DailyPred.predicted_price)).sum
            / (([⟨"Monday", (100 : ℚ)⟩, ⟨"Tuesday", 100⟩, ⟨"Wednesday", 100⟩,
                ⟨"Thursday", 100⟩, ⟨"Friday", 100⟩] : List DailyPred).length : ℚ),
          perfLines (histClose [(0, 110)]) 0
            [⟨"Monday", 100⟩, ⟨"Tuesday", 100⟩, ⟨"Wednesday", 100⟩,
             ⟨"Thursday", 100⟩, ⟨"Friday", 100⟩]⟩ :=
  avg_error_denominator_counts_all_days [(0, 110)]
    ⟨"^NSEI", 0, 0, 4,
     [⟨"Monday", 100⟩, ⟨"Tuesday", 100⟩, ⟨"Wednesday", 100⟩,
      ⟨"Thursday", 100⟩, ⟨"Friday", 100⟩], "flat", none, none⟩ 110
    (by decide) rfl

/-- C10: prior-week evaluation is atomic per row: the per-row step
either leaves the row entirely unchanged (failed fetch, empty prediction
list, or empty history) or sets actual_closing_price and
performance_summary together in its single update; no outcome fills
exactly one of the two fields. -/
theorem eval_row_atomic (fetch : Except String (List (Nat × ℚ))) (row : ForecastRow) :
    evalRow fetch row = row
    ∨ ∃ p s, evalRow fetch row
        = { row with actual_closing_price := some p, performance_summary := some s } := by
  cases fetch with
  | error e => left; simp [evalRow]
  | ok hist =>
      by_cases hemp : row.daily_predictions_json.isEmpty
      · left; simp [evalRow, hemp]
      · cases hlast : (hist.map Prod.snd).getLast? with
        | none =>
            left
            simp [evalRow, eq_false_of_ne_true hemp, hlast]
        | some c =>
            right
            refine ⟨c,
              ⟨avgDiff (histClose hist) row.week_start_date
                  (row.daily_predictions_json.map DailyPred.predicted_price),
               perfLines (histClose hist) row.week_start_date
                  row.daily_predictions_json⟩, ?_⟩
            simp [evalRow, eq_false_of_ne_true hemp, hlast]

/-! ## Theorems about judgment and forecast response handling -/

/-- C8 counterexample: a parsed oracle response whose decision is
"MAYBE" (not in BUY/SELL/HOLD) and whose confidence is "Extreme" (not in
Low/Medium/High) is accepted end-to-end and inserted as a Decision row —
no schema validation rejects it. -/
theorem unvalidated_judgment_persisted :
    (run_proactive_analysis 0
        (fun _ _ => run_full_analysis false 100
          (Except.ok ⟨"MAYBE", "Extreme", "", "", "", ""⟩))
        [("X", "NSE")] []).1
      = [⟨0, "X", "NSE", 0, some 100, "MAYBE", "Extreme", "", "", "", "", none⟩]
    ∧ "MAYBE" ∉ (["BUY", "SELL", "HOLD"] : List String)
    ∧ "Extreme" ∉ (["Low", "Medium", "High"] : List String) := by
  refine ⟨rfl, by decide, by decide⟩

/-- C8 amended: the judgment pipeline performs no enumeration check on
the oracle response: whenever the per-symbol check finds no same-day row
and the fetch and parse succeed, the response's decision and confidence
strings are persisted verbatim, whatever they are; a symbol is skipped
only when the analysis itself signals an error. -/
theorem parsed_judgment_persisted_verbatim (today : Nat) (close : ℚ)
    (r : OracleResponse) (sym exch : String) (ds : List Decision)
    (h : ¬ hasToday today ds sym) :
    run_proactive_analysis today
        (fun _ _ => run_full_analysis false close (Except.ok r)) [(sym, exch)] ds
      = (ds ++ [⟨0, sym, exch, today, some close, r.decision, r.confidence,
          r.technical_summary, r.fundamental_summary, r.sentiment_summary,
          r.final_summary, none⟩], [sym]) := by
  simp [run_proactive_analysis, processStock, if_neg h, run_full_analysis, mkDecision]

/-- Witness for the amended C8: with no prior row for the symbol, the
parsed response fields land unchanged in the inserted row. -/
theorem parsed_judgment_persisted_verbatim_witness :
    run_proactive_analysis 0
        (fun _ _ => run_full_analysis false 100
          (Except.ok ⟨"BUY", "High", "t", "f", "s", "fin"⟩)) [("X", "NSE")] []
      = ([] ++ [⟨0, "X", "NSE", 0, some 100, "BUY", "High", "t", "f", "s", "fin", none⟩],
         ["X"]) :=
  parsed_judgment_persisted_verbatim 0 100 ⟨"BUY", "High", "t", "f", "s", "fin"⟩
    "X" "NSE" [] (by decide)

/-- C9 counterexample: the forecast generator inserts whatever
daily_predictions list the parsed response carries — a one-entry list is
stored as-is, so an inserted WeeklyForecast row need not have 5 entries. -/
theorem forecast_without_five_entries_inserted :
    (generate_new_weekly_predictions 0
        (fun _ => Except.ok ⟨"flat week", [⟨"Monday", 100⟩]⟩)
        ["^NSEI"] []).map (fun r => r.daily_predictions_json.length) = [1]
    ∧ (1 : Nat) ≠ 5 := by
  refine ⟨rfl, by decide⟩

/-- C9 amended: generation stores the parsed response's
daily_predictions verbatim, with no validation of entry count or day
order; an inserted row has exactly 5 Monday-to-Friday entries only when
the response does. -/
theorem forecast_inserted_verbatim (today : Nat) (resp : ForecastResponse)
    (s : String) (rows : List ForecastRow)
    (h : ∀ r ∈ rows, ¬(r.symbol = s ∧ r.week_start_date = weekStartOf today)) :
    generate_new_weekly_predictions today (fun _ => Except.ok resp) [s] rows
      = rows ++ [⟨s, today, weekStartOf today, weekStartOf today + 4,
          resp.daily_predictions, resp.weekly_reasoning, none, none⟩] := by
  simp only [generate_new_weekly_predictions, List.foldl_cons, List.foldl_nil]
  rw [if_neg]
  intro hany
  rw [List.any_eq_true] at hany
  obtain ⟨r, hmem, hr⟩ := hany
  exact h r hmem (of_decide_eq_true hr)

/-- Witness for the amended C9: inserting into an empty table stores the
response's two-entry list unchanged. -/
theorem forecast_inserted_verbatim_witness :
    generate_new_weekly_predictions 0
        (fun _ => Except.ok ⟨"w", [⟨"Monday", 100⟩, ⟨"Tuesday", 101⟩]⟩) ["^NSEI"] []
      = [] ++ [⟨"^NSEI", 0, weekStartOf 0, weekStartOf 0 + 4,
          [⟨"Monday", 100⟩, ⟨"Tuesday", 101⟩], "w", none, none⟩] :=
  forecast_inserted_verbatim 0 ⟨"w", [⟨"Monday", 100⟩, ⟨"Tuesday", 101⟩]⟩ "^NSEI" []
    (by intro r hmem; exact absurd hmem (List.not_mem_nil r))

end DalalStreet
